import Mathlib

/-!
Shallow embedding of the `av-vorbis` decoder adapter (`src/decoder.rs`).

The adapter wires the external `lewton` vorbis engine and the pipeline's
`data`/`codec` crates together.  Engine calls (`read_header_ident`,
`read_header_comment`, `read_header_setup`, `get_decoded_sample_count`,
`read_audio_packet`) are external collaborators, modelled as fields of an
`Engine` record that is passed explicitly where the Rust code calls the
free functions.  External data types (`ChannelMap`, `PreviousWindowRight`,
frames, packets) are modelled by minimal records exposing exactly the
behaviour the adapter relies on at the interface boundary.

Rust panics (a failed `unwrap`, an out-of-bounds slice or index) are
modelled by the `none` outcome of an `Option`-valued operation; a clean
error return is `some (.error _)`.  Machine integers are modelled as `Nat`
with an explicit `% 2 ^ 64` where the Rust code accumulates into a `u64`.
-/

namespace AvVorbis

/-- The `codec::error::Error` variants used by the adapter. -/
inductive Error where
  | InvalidData
  | ConfigurationIncomplete
  | MoreDataNeeded
deriving DecidableEq

/-- The fields of lewton's identification header that the adapter reads
(`audio_channels`, `audio_sample_rate`, `blocksize_0`, `blocksize_1`). -/
structure IdentHeader where
  audio_channels : Nat
  audio_sample_rate : Nat
  blocksize_0 : Nat
  blocksize_1 : Nat
deriving DecidableEq

/-- lewton's comment header: opaque to the adapter, carried around as a token. -/
structure CommentHeader where
  tag : Nat
deriving DecidableEq

/-- lewton's setup header: opaque to the adapter, carried around as a token. -/
structure SetupHeader where
  tag : Nat
deriving DecidableEq

/-- lewton's `PreviousWindowRight` continuity state: opaque to the adapter. -/
structure Pwr where
  tag : Nat
deriving DecidableEq

/-- `PreviousWindowRight::new()`: the fresh empty continuity state. -/
def Pwr.new : Pwr := ⟨0⟩

/-- The `data` crate's `ChannelMap`, modelled by its channel count, which is
the only property the adapter depends on. -/
structure ChannelMap where
  channels : Nat
deriving DecidableEq

/-- `ChannelMap::new()`: the empty map. -/
def ChannelMap.new : ChannelMap := ⟨0⟩

/-- `ChannelMap::default_map(n)`: the default layout for `n` channels;
its channel count is `n`. -/
def ChannelMap.default_map (n : Nat) : ChannelMap := ⟨n⟩

/-- The sample format; the adapter always uses `S16`. -/
inductive SampleFormat where
  | S16
deriving DecidableEq

/-- The `data` crate's `AudioInfo` with the fields the adapter touches. -/
structure AudioInfo where
  samples : Nat
  sample_rate : Nat
  map : ChannelMap
  format : SampleFormat
  block_len : Option Nat
deriving DecidableEq

/-- An audio frame: stream-info snapshot, optional timestamp, and the
interleaved signed-16-bit sample buffer (entries modelled as `Int`). -/
structure Frame where
  info : AudioInfo
  t : Option Nat
  buf : List Int
deriving DecidableEq

/-- A packet: payload bytes plus an (opaque, modelled as `Nat`) timestamp. -/
structure Packet where
  data : List Nat
  t : Nat
deriving DecidableEq

/-- lewton's `HeaderSet` tuple `(ident, comment, setup)`. -/
abbrev HeaderSet := IdentHeader × CommentHeader × SetupHeader

/-- The decoder instance `Dec` (src/decoder.rs lines 19-25). -/
structure Dec where
  extradata : Option (List Nat)
  headers : Option HeaderSet
  pwr : Pwr
  pending : List Frame
  info : AudioInfo
deriving DecidableEq

/-- `Dec::new()` (src/decoder.rs lines 28-42). -/
def Dec.new : Dec where
  extradata := none
  headers := none
  pwr := Pwr.new
  pending := []
  info :=
    { samples := 0
      sample_rate := 48000
      map := ChannelMap.new
      format := .S16
      block_len := none }

/-- `Descriptor::create` for the vorbis descriptor: returns `Dec::new()`. -/
def create : Dec := Dec.new

/-- The external lewton engine, abstracted over the five entry points the
adapter calls.  `read_audio_packet` takes the continuity state by value and
returns the updated one (the Rust call mutates it in place). -/
structure Engine where
  read_header_ident : List Nat → Except Unit IdentHeader
  read_header_comment : List Nat → Except Unit CommentHeader
  read_header_setup : List Nat → Nat → Nat × Nat → Except Unit SetupHeader
  get_decoded_sample_count : IdentHeader → SetupHeader → List Nat → Except Unit Nat
  read_audio_packet :
    IdentHeader → SetupHeader → List Nat → Pwr → Except Unit (List (List Int)) × Pwr

/-- `set_extradata` (src/decoder.rs lines 58-60). -/
def set_extradata (d : Dec) (extra : List Nat) : Dec :=
  { d with extradata := some extra }

/-- The accumulator loop of `read_xiph_lacing` (src/decoder.rs lines 133-144):
`r` is a `u64` running total, so each addition is reduced `% 2 ^ 64`. -/
def read_xiph_lacing_go (r : Nat) : List Nat → Except Error (Nat × List Nat)
  | [] => .error .InvalidData
  | v :: arr =>
    if v < 255 then .ok ((r + v) % 2 ^ 64, arr)
    else read_xiph_lacing_go ((r + v) % 2 ^ 64) arr

/-- `read_xiph_lacing` (src/decoder.rs lines 132-145): consumes bytes from
the front of `arr`, returning the decoded total and the remaining bytes. -/
def read_xiph_lacing (arr : List Nat) : Except Error (Nat × List Nat) :=
  read_xiph_lacing_go 0 arr

/-- The lacing encoding of `V` described by the spec: `⌊V/255⌋` bytes of 255
followed by the single byte `V % 255`. -/
def encodeLacing (V : Nat) : List Nat :=
  List.replicate (V / 255) 255 ++ [V % 255]

/-- `configure` (src/decoder.rs lines 92-124).  `none` models a panic: the
Rust code slices `&extradata[0..ident_len]` and `&extradata[0..comment_len]`
without bounds checks, which panics when a lacing-declared length exceeds
the remaining buffer.  Every clean error return leaves the decoder state
unchanged, mirroring the early `return Err(..)` paths. -/
def configure (e : Engine) (d : Dec) : Option (Except Error Unit × Dec) :=
  match d.extradata with
  | none => some (.error .ConfigurationIncomplete, d)
  | some extradata0 =>
    match extradata0 with
    | [] => some (.error .InvalidData, d)
    | b :: extradata1 =>
      if b ≠ 2 then some (.error .InvalidData, d)
      else
        match read_xiph_lacing extradata1 with
        | .error err => some (.error err, d)
        | .ok (ident_len, extradata2) =>
          match read_xiph_lacing extradata2 with
          | .error err => some (.error err, d)
          | .ok (comment_len, extradata3) =>
            if extradata3.length < ident_len then none
            else
              match e.read_header_ident (extradata3.take ident_len) with
              | .error _ => some (.error .InvalidData, d)
              | .ok ident =>
                let extradata4 := extradata3.drop ident_len
                if extradata4.length < comment_len then none
                else
                  match e.read_header_comment (extradata4.take comment_len) with
                  | .error _ => some (.error .InvalidData, d)
                  | .ok comment =>
                    let extradata5 := extradata4.drop comment_len
                    match e.read_header_setup extradata5 ident.audio_channels
                        (ident.blocksize_0, ident.blocksize_1) with
                    | .error _ => some (.error .InvalidData, d)
                    | .ok setup =>
                      some (.ok (),
                        { d with
                          info :=
                            { d.info with
                              sample_rate := ident.audio_sample_rate
                              map := ChannelMap.default_map ident.audio_channels }
                          headers := some (ident, comment, setup) })

/-- One iteration row of the interleave loop (src/decoder.rs lines 77-81,
inner `for (cn, chan) in samples.iter().enumerate()`): writes
`buf[i * C + cn] = chan[i]` for each channel, `none` on an out-of-bounds
access (a Rust index panic). -/
def fillRow : List Int → List (List Int) → Nat → Nat → Nat → Option (List Int)
  | buf, [], _, _, _ => some buf
  | buf, chan :: rest, i, C, cn =>
    if i < chan.length ∧ i * C + cn < buf.length then
      fillRow (buf.set (i * C + cn) (chan.getD i 0)) rest i C (cn + 1)
    else none

/-- The outer interleave loop (src/decoder.rs line 77, `for i in
0..sample_count`): runs `fillRow` for rows `i, i+1, …` for `k` rows. -/
def fillRows : List Int → List (List Int) → Nat → Nat → Nat → Option (List Int)
  | buf, _, _, _, 0 => some buf
  | buf, samples, C, i, Nat.succ k =>
    match fillRow buf samples i C 0 with
    | none => none
    | some buf2 => fillRows buf2 samples C (i + 1) k

/-- The `data` crate's `Frame::new_default_frame`: a frame carrying the given
info and timestamp whose single S16 plane holds `info.samples` zeroed
samples. -/
def new_default_frame (info : AudioInfo) (t : Option Nat) : Frame :=
  { info := info, t := t, buf := List.replicate info.samples 0 }

/-- `send_packet` (src/decoder.rs lines 61-88).  `none` models a panic:
line 62 unwraps the header set (panics when `configure` has not succeeded),
and the interleave loop indexes `samples[0]`, `chan[i]` and
`buf[i * channel_count + cn]`, which panic when out of bounds. -/
def send_packet (e : Engine) (d : Dec) (pkt : Packet) : Option (Except Error Unit × Dec) :=
  match d.headers with
  | none => none
  | some headers =>
    match e.get_decoded_sample_count headers.1 headers.2.2 pkt.data with
    | .error _ => some (.error .InvalidData, d)
    | .ok samples_per_channel =>
      let channel_count := headers.1.audio_channels
      let info := { d.info with samples := samples_per_channel * channel_count }
      let rp := e.read_audio_packet headers.1 headers.2.2 pkt.data d.pwr
      let d2 := { d with pwr := rp.2 }
      match rp.1 with
      | .error _ => some (.error .InvalidData, d2)
      | .ok samples =>
        match samples with
        | [] => none
        | s0 :: _ =>
          let f0 := new_default_frame info (some pkt.t)
          match fillRows f0.buf samples channel_count 0 s0.length with
          | none => none
          | some buf =>
            some (.ok (), { d2 with pending := d2.pending ++ [{ f0 with buf := buf }] })

/-- `receive_frame` (src/decoder.rs lines 89-91): pops the oldest pending
frame, `MoreDataNeeded` when the queue is empty. -/
def receive_frame (d : Dec) : Except Error Frame × Dec :=
  match d.pending with
  | [] => (.error .MoreDataNeeded, d)
  | f :: rest => (.ok f, { d with pending := rest })

/-- `flush` (src/decoder.rs lines 126-129): reinitializes the continuity
state and returns `Ok(())`. -/
def flush (d : Dec) : Except Error Unit × Dec :=
  (.ok (), { d with pwr := Pwr.new })

/-- A concrete deterministic engine used to evaluate the operations on
closed inputs.  It reports one sample per payload byte across two channels
and fails on empty payloads. -/
def testEngine : Engine where
  read_header_ident := fun _ => .ok ⟨2, 44100, 256, 2048⟩
  read_header_comment := fun bytes => .ok ⟨bytes.length⟩
  read_header_setup := fun bytes _ _ => .ok ⟨bytes.length⟩
  get_decoded_sample_count := fun _ _ data =>
    match data with
    | [] => .error ()
    | _ => .ok data.length
  read_audio_packet := fun _ _ data pwr =>
    match data with
    | [] => (.error (), pwr)
    | _ => (.ok [List.replicate data.length 1, List.replicate data.length 2], pwr)

/-- The header set `testEngine` parses. -/
def testHeaders : HeaderSet := (⟨2, 44100, 256, 2048⟩, ⟨0⟩, ⟨0⟩)

/-- A decoder as left by a successful `configure` against `testEngine`. -/
def testDecConfigured : Dec := { Dec.new with headers := some testHeaders }

/-- The frame `send_packet` produces from the one-byte packet `[7]` at
timestamp 5 against `testEngine`: one sample per channel, interleaved. -/
def testFrame : Frame where
  info :=
    { samples := 2
      sample_rate := 48000
      map := ChannelMap.new
      format := .S16
      block_len := none }
  t := some 5
  buf := [1, 2]

/-- The decoder state after that successful `send_packet`. -/
def testDecAfterSend : Dec := { testDecConfigured with pending := [testFrame] }

/-! ### Lacing lemmas -/

/-- Running the lacing accumulator over `k` bytes of 255 followed by a
terminating byte `m < 255` yields the total `(r + 255 * k + m) % 2 ^ 64` and
leaves exactly the bytes after the terminator. -/
theorem read_xiph_lacing_go_run (k : Nat) (r m : Nat) (rest : List Nat) (hm : m < 255) :
    read_xiph_lacing_go r (List.replicate k 255 ++ m :: rest) =
      .ok ((r + (255 * k + m)) % 2 ^ 64, rest) := by
  induction k generalizing r with
  | zero => simp [read_xiph_lacing_go, hm]
  | succ k ih =>
    rw [List.replicate_succ, List.cons_append, read_xiph_lacing_go]
    simp only [show ¬(255 < 255) from by omega, if_false]
    rw [ih]
    congr 1
    rw [Nat.mod_add_mod]
    congr 1
    omega

/-- Running the lacing accumulator over a buffer consisting only of 255
bytes (possibly none) fails with `InvalidData`. -/
theorem read_xiph_lacing_go_trunc (k : Nat) (r : Nat) :
    read_xiph_lacing_go r (List.replicate k 255) = .error .InvalidData := by
  induction k generalizing r with
  | zero => simp [read_xiph_lacing_go]
  | succ k ih =>
    rw [List.replicate_succ, read_xiph_lacing_go]
    simp only [show ¬(255 < 255) from by omega, if_false]
    exact ih _

/-- Decoding the lacing encoding of `V < 2 ^ 64` returns exactly `V` and the
untouched remainder of the buffer. -/
theorem read_xiph_lacing_encode (V : Nat) (rest : List Nat) (hV : V < 2 ^ 64) :
    read_xiph_lacing (encodeLacing V ++ rest) = .ok (V, rest) := by
  unfold read_xiph_lacing encodeLacing
  rw [List.append_assoc, List.singleton_append,
    read_xiph_lacing_go_run (V / 255) 0 (V % 255) rest (Nat.mod_lt _ (by omega))]
  rw [Nat.zero_add, Nat.div_add_mod, Nat.mod_eq_of_lt hV]

/-! ### Claim theorems -/

/-- C3: the lacing reader round-trips the length encoding: for every value
`V` (that fits the `u64` accumulator), decoding `⌊V/255⌋` bytes of 255
followed by the byte `V % 255` returns exactly `V` and consumes exactly
those bytes, leaving any following bytes untouched; and a truncated
sequence consisting only of 255 bytes (including the empty buffer) fails
with `InvalidData`. -/
theorem c3_lacing_roundtrip :
    (∀ V rest, V < 2 ^ 64 →
      read_xiph_lacing (encodeLacing V ++ rest) = .ok (V, rest)) ∧
    (∀ k, read_xiph_lacing (List.replicate k 255) = .error .InvalidData) := by
  constructor
  · exact fun V rest hV => read_xiph_lacing_encode V rest hV
  · exact fun k => read_xiph_lacing_go_trunc k 0

/-- C3 witness: the spec's examples — `[255, 45]` decodes to 300, `[0]`
decodes to 0, and the truncated run `[255, 255]` fails. -/
theorem c3_lacing_roundtrip_witness :
    read_xiph_lacing [255, 45] = .ok (300, []) ∧
    read_xiph_lacing [0] = .ok (0, []) ∧
    read_xiph_lacing [255, 255] = .error .InvalidData := by
  refine ⟨?_, ?_, c3_lacing_roundtrip.2 2⟩
  · have h := c3_lacing_roundtrip.1 300 [] (by norm_num)
    simpa [encodeLacing] using h
  · have h := c3_lacing_roundtrip.1 0 [] (by norm_num)
    simpa [encodeLacing] using h

/-- C1 counterexample: immediately after `create()` the header set is
still `None`, and `send_packet` hits the `unwrap` panic (modelled `none`)
rather than returning any clean error value. -/
theorem c1_send_packet_after_create_panics :
    create.headers = none ∧
    send_packet testEngine create { data := [1], t := 0 } = none :=
  ⟨rfl, rfl⟩

/-- C1 (amended): calling `send_packet` on a decoder immediately after
`create()`, before any successful `configure()`, panics on the header-set
`unwrap` (the `none` outcome) for every engine and packet; it does not
return a clean error value. -/
theorem c1_send_packet_after_create (e : Engine) (pkt : Packet) :
    send_packet e create pkt = none :=
  rfl

/-- C2: `configure` is not total — when the lacing-declared identification
header length exceeds the remaining buffer, the Rust slice
`&extradata[0..ident_len]` panics (modelled `none`) instead of returning an
"invalid data" error.  Extradata `[2, 1, 1]` declares `ident_len = 1` and
`comment_len = 1`, leaving an empty buffer to slice from. -/
theorem c2_configure_panics_on_overlong_lacing :
    configure testEngine (set_extradata create [2, 1, 1]) = none :=
  rfl

/-- C8: `flush` always succeeds, resets the continuity state to the fresh
empty value, and leaves the header set, stream info, stored extradata and
pending queue unchanged. -/
theorem c8_flush_resets_only_pwr (d : Dec) :
    (flush d).1 = .ok () ∧
    (flush d).2.pwr = Pwr.new ∧
    (flush d).2.headers = d.headers ∧
    (flush d).2.info = d.info ∧
    (flush d).2.extradata = d.extradata ∧
    (flush d).2.pending = d.pending :=
  ⟨rfl, rfl, rfl, rfl, rfl, rfl⟩

/-- C10: with no extradata stored, `configure` fails with
`ConfigurationIncomplete` and leaves the decoder state unchanged. -/
theorem c10_configure_without_extradata (e : Engine) (d : Dec)
    (h : d.extradata = none) :
    configure e d = some (.error .ConfigurationIncomplete, d) := by
  unfold configure
  rw [h]

/-- C10 witness: `configure` on a freshly created decoder. -/
theorem c10_configure_without_extradata_witness :
    configure testEngine create = some (.error .ConfigurationIncomplete, create) :=
  c10_configure_without_extradata testEngine create rfl

/-- Every clean error return of `configure` leaves the decoder state
exactly as it was: the state is only written after all three headers
parse. -/
theorem configure_error_state (e : Engine) (d : Dec) (err : Error) (d2 : Dec)
    (h : configure e d = some (.error err, d2)) : d2 = d := by
  unfold configure at h
  repeat' split at h
  all_goals try simp_all
  all_goals (obtain ⟨-, h⟩ := h; repeat' split at h; try simp_all)
  all_goals (simp only [Option.some.injEq, Prod.mk.injEq] at h; exact (Except.noConfusion h.1))

/-- C9: for every stored extradata whose first byte is not 2, and for the
empty stored extradata, `configure` fails with `InvalidData`; and on every
clean error return of `configure` the decoder state — in particular the
header set (so it stays `None` when it was `None`) and the stream info —
is unchanged. -/
theorem c9_configure_bad_marker (e : Engine) (d : Dec) :
    (∀ b rest, d.extradata = some (b :: rest) → b ≠ 2 →
      configure e d = some (.error .InvalidData, d)) ∧
    (d.extradata = some [] → configure e d = some (.error .InvalidData, d)) ∧
    (∀ err d2, configure e d = some (.error err, d2) →
      d2.headers = d.headers ∧ d2.info = d.info) := by
  refine ⟨?_, ?_, ?_⟩
  · intro b rest hx hb
    unfold configure
    rw [hx]
    simp [hb]
  · intro hx
    unfold configure
    rw [hx]
  · intro err d2 h
    rw [configure_error_state e d err d2 h]
    exact ⟨rfl, rfl⟩

/-- C9 witness: extradata `[3]` has marker 3 ≠ 2; `configure` fails with
`InvalidData` and the state is unchanged. -/
theorem c9_configure_bad_marker_witness :
    configure testEngine (set_extradata create [3]) =
      some (.error .InvalidData, set_extradata create [3]) ∧
    (set_extradata create [3]).headers = (set_extradata create [3]).headers := by
  have h := (c9_configure_bad_marker testEngine (set_extradata create [3])).1 3 [] rfl
    (by decide)
  exact ⟨h,
    ((c9_configure_bad_marker testEngine (set_extradata create [3])).2.2 .InvalidData
      (set_extradata create [3]) h).1 ▸ rfl⟩

/-- C5: for every valid extradata layout — marker byte 2, lacing-encoded
lengths of the identification and comment headers, then the three header
byte ranges, with the engine parsing each successfully — `configure`
succeeds, sets the stream info's sample rate to the identification
header's declared rate, sets the channel layout to the default map derived
from the declared channel count (so the stream info's channel count equals
the declared channel count), and caches the three parsed headers. -/
theorem c5_configure_valid_extradata (e : Engine) (d : Dec)
    (identBytes commentBytes setupBytes : List Nat)
    (ident : IdentHeader) (comment : CommentHeader) (setup : SetupHeader)
    (il cl : Nat)
    (hil : il < 2 ^ 64) (hcl : cl < 2 ^ 64)
    (hi : identBytes.length = il) (hc : commentBytes.length = cl)
    (hx : d.extradata = some (2 :: (encodeLacing il ++
      (encodeLacing cl ++ (identBytes ++ (commentBytes ++ setupBytes))))))
    (hident : e.read_header_ident identBytes = .ok ident)
    (hcomment : e.read_header_comment commentBytes = .ok comment)
    (hsetup : e.read_header_setup setupBytes ident.audio_channels
      (ident.blocksize_0, ident.blocksize_1) = .ok setup) :
    ∃ d2, configure e d = some (.ok (), d2) ∧
      d2.info.sample_rate = ident.audio_sample_rate ∧
      d2.info.map = ChannelMap.default_map ident.audio_channels ∧
      d2.info.map.channels = ident.audio_channels ∧
      d2.headers = some (ident, comment, setup) := by
  unfold configure
  rw [hx]
  have hlen1 : ¬((identBytes ++ (commentBytes ++ setupBytes)).length < il) := by
    simp only [List.length_append, hi]
    omega
  have hlen2 : ¬((commentBytes ++ setupBytes).length < cl) := by
    simp only [List.length_append, hc]
    omega
  simp only [ne_eq, not_true_eq_false, if_false, ite_false, reduceIte,
    read_xiph_lacing_encode il _ hil, read_xiph_lacing_encode cl _ hcl,
    if_neg hlen1, List.take_left' hi, hident, List.drop_left' hi,
    if_neg hlen2, List.take_left' hc, hcomment, List.drop_left' hc, hsetup]
  exact ⟨_, rfl, rfl, rfl, rfl, rfl⟩

/-- C5 witness: extradata `[2, 1, 0, 1]` (marker, ident length 1, comment
length 0, one identification byte, empty comment and setup ranges) against
the concrete engine. -/
theorem c5_configure_valid_extradata_witness :
    ∃ d2, configure testEngine (set_extradata create [2, 1, 0, 1]) =
        some (.ok (), d2) ∧
      d2.info.sample_rate = 44100 ∧
      d2.info.map = ChannelMap.default_map 2 ∧
      d2.info.map.channels = 2 ∧
      d2.headers = some (⟨2, 44100, 256, 2048⟩, ⟨0⟩, ⟨0⟩) :=
  c5_configure_valid_extradata testEngine (set_extradata create [2, 1, 0, 1])
    [1] [] [] ⟨2, 44100, 256, 2048⟩ ⟨0⟩ ⟨0⟩ 1 0
    (by norm_num) (by norm_num) rfl rfl (by decide) rfl rfl rfl

/-! ### Queue behaviour of `send_packet` / `receive_frame` -/

/-- `receive_frame` on an empty queue signals `MoreDataNeeded` and leaves
the state unchanged. -/
theorem receive_frame_nil (d : Dec) (h : d.pending = []) :
    receive_frame d = (.error .MoreDataNeeded, d) := by
  unfold receive_frame
  rw [h]

/-- `receive_frame` on a non-empty queue pops the oldest frame. -/
theorem receive_frame_cons (d : Dec) (f : Frame) (rest : List Frame)
    (h : d.pending = f :: rest) :
    receive_frame d = (.ok f, { d with pending := rest }) := by
  unfold receive_frame
  rw [h]

/-- A successful `send_packet` appends exactly one frame to the pending
queue. -/
theorem send_packet_ok_pending (e : Engine) (d : Dec) (pkt : Packet) (u : Unit) (d2 : Dec)
    (h : send_packet e d pkt = some (.ok u, d2)) :
    ∃ f, d2.pending = d.pending ++ [f] := by
  unfold send_packet at h
  repeat' (first | (split at h) | (simp only [] at h))
  all_goals simp_all
  exact ⟨_, by rw [← h]⟩

/-- A clean error return of `send_packet` leaves the pending queue
unchanged. -/
theorem send_packet_error_pending (e : Engine) (d : Dec) (pkt : Packet)
    (err : Error) (d2 : Dec)
    (h : send_packet e d pkt = some (.error err, d2)) :
    d2.pending = d.pending := by
  unfold send_packet at h
  repeat' (first | (split at h) | (simp only [] at h))
  all_goals simp_all
  all_goals (obtain ⟨-, h2⟩ := h; rw [← h2])

/-- C6: `receive_frame` on an empty pending queue returns `MoreDataNeeded`;
after exactly one successful `send_packet` on an empty queue, exactly one
`receive_frame` succeeds, returning the enqueued frame, and the next
`receive_frame` returns `MoreDataNeeded` again. -/
theorem c6_receive_frame_handshake (e : Engine) (d d2 : Dec) (pkt : Packet)
    (hempty : d.pending = [])
    (hsend : send_packet e d pkt = some (.ok (), d2)) :
    receive_frame d = (.error .MoreDataNeeded, d) ∧
    ∃ f, receive_frame d2 = (.ok f, { d2 with pending := [] }) ∧
      receive_frame { d2 with pending := [] } =
        (.error .MoreDataNeeded, { d2 with pending := [] }) := by
  obtain ⟨f, hp⟩ := send_packet_ok_pending e d pkt () d2 hsend
  rw [hempty] at hp
  exact ⟨receive_frame_nil d hempty,
    f, receive_frame_cons d2 f [] (by simpa using hp), receive_frame_nil _ rfl⟩

/-- C7: whenever `send_packet` returns a clean error, no frame is produced
and the pending queue is unchanged; and when determining the decoded
sample count fails, `send_packet` returns `InvalidData` with the whole
decoder state (continuity state, header set, stream info, queue) exactly
as before. -/
theorem c7_send_packet_error_no_mutation (e : Engine) (d : Dec) (pkt : Packet) :
    (∀ err d2, send_packet e d pkt = some (.error err, d2) → d2.pending = d.pending) ∧
    (∀ hs, d.headers = some hs →
      ∀ u, e.get_decoded_sample_count hs.1 hs.2.2 pkt.data = .error u →
        send_packet e d pkt = some (.error .InvalidData, d)) := by
  constructor
  · exact fun err d2 h => send_packet_error_pending e d pkt err d2 h
  · intro hs hhs u hcnt
    unfold send_packet
    rw [hhs]
    simp only [hcnt]

/-- C6 witness: a concrete successful `send_packet` against `testEngine`
followed by the two `receive_frame` calls. -/
theorem c6_receive_frame_handshake_witness :
    receive_frame testDecConfigured = (.error .MoreDataNeeded, testDecConfigured) ∧
    ∃ f, receive_frame testDecAfterSend = (.ok f, { testDecAfterSend with pending := [] }) ∧
      receive_frame { testDecAfterSend with pending := [] } =
        (.error .MoreDataNeeded, { testDecAfterSend with pending := [] }) :=
  c6_receive_frame_handshake testEngine testDecConfigured testDecAfterSend
    { data := [7], t := 5 } rfl rfl

/-- C7 witness: the empty packet makes `get_decoded_sample_count` fail;
`send_packet` returns `InvalidData` with the state untouched. -/
theorem c7_send_packet_error_no_mutation_witness :
    testDecConfigured.pending = testDecConfigured.pending ∧
    send_packet testEngine testDecConfigured { data := [], t := 0 } =
      some (.error .InvalidData, testDecConfigured) :=
  ⟨(c7_send_packet_error_no_mutation testEngine testDecConfigured
      { data := [], t := 0 }).1 .InvalidData testDecConfigured
      ((c7_send_packet_error_no_mutation testEngine testDecConfigured
        { data := [], t := 0 }).2 testHeaders rfl () rfl),
   (c7_send_packet_error_no_mutation testEngine testDecConfigured
      { data := [], t := 0 }).2 testHeaders rfl () rfl⟩

/-! ### Interleave lemmas -/

/-- `fillRow` writes channel `k`'s sample `i` into slot `i * C + cn + k`
for each remaining channel, leaves every slot before `i * C + cn`
untouched, preserves the buffer length, and succeeds whenever all those
accesses are in bounds. -/
theorem fillRow_spec (chans : List (List Int)) :
    ∀ (buf : List Int) (i C cn : Nat),
    (∀ c ∈ chans, i < c.length) →
    i * C + cn + chans.length ≤ buf.length →
    ∃ buf2, fillRow buf chans i C cn = some buf2 ∧
      buf2.length = buf.length ∧
      (∀ k, k < chans.length →
        buf2.getD (i * C + cn + k) 0 = (chans.getD k []).getD i 0) ∧
      (∀ p, p < i * C + cn → buf2.getD p 0 = buf.getD p 0) := by
  induction chans with
  | nil =>
    intro buf i C cn hall hlen
    exact ⟨buf, rfl, rfl, fun k hk => absurd hk (Nat.not_lt_zero k), fun p hp => rfl⟩
  | cons chan rest ih =>
    intro buf i C cn hall hlen
    have hc : i < chan.length := hall chan (List.mem_cons_self chan rest)
    have hb : i * C + cn < buf.length := by
      simp only [List.length_cons] at hlen
      omega
    obtain ⟨buf2, h1, h2, h3, h4⟩ :=
      ih (buf.set (i * C + cn) (chan.getD i 0)) i C (cn + 1)
        (fun c hc2 => hall c (List.mem_cons_of_mem chan hc2))
        (by
          rw [List.length_set]
          simp only [List.length_cons] at hlen
          omega)
    refine ⟨buf2, ?_, ?_, ?_, ?_⟩
    · rw [fillRow, if_pos ⟨hc, hb⟩]
      exact h1
    · rw [h2, List.length_set]
    · intro k hk
      cases k with
      | zero =>
        have hp := h4 (i * C + cn) (by omega)
        rw [Nat.add_zero, hp]
        simp only [List.getD_eq_getElem?_getD, List.getElem?_set_self hb, Option.getD_some]
        simp
      | succ k2 =>
        have hk2 := h3 k2 (by simpa using hk)
        rw [show i * C + cn + (k2 + 1) = i * C + (cn + 1) + k2 from by omega, hk2]
        rw [List.getD_cons_succ]
    · intro p hp
      rw [h4 p (by omega)]
      simp only [List.getD_eq_getElem?_getD]
      rw [List.getElem?_set_ne (by omega : i * C + cn ≠ p)]

/-- `fillRows` starting at row `i` for `k` rows fills every slot
`r * C + cn` (for `i ≤ r < i + k`, `cn < C`) with channel `cn`'s sample
`r`, leaves slots before row `i` untouched, preserves the buffer length,
and succeeds whenever the channels are long enough and the buffer holds
`i + k` rows. -/
theorem fillRows_spec (samples : List (List Int)) (C : Nat) :
    ∀ (k : Nat) (buf : List Int) (i : Nat),
    (∀ c ∈ samples, i + k ≤ c.length) →
    samples.length = C →
    (i + k) * C ≤ buf.length →
    ∃ buf2, fillRows buf samples C i k = some buf2 ∧
      buf2.length = buf.length ∧
      (∀ r cn, i ≤ r → r < i + k → cn < C →
        buf2.getD (r * C + cn) 0 = (samples.getD cn []).getD r 0) ∧
      (∀ p, p < i * C → buf2.getD p 0 = buf.getD p 0) := by
  intro k
  induction k with
  | zero =>
    intro buf i hall hsl hlen
    exact ⟨buf, rfl, rfl, fun r cn hr hr2 hcn => absurd hr2 (by omega),
      fun p hp => rfl⟩
  | succ k ih =>
    intro buf i hall hsl hlen
    have hmul : (i + 1) * C = i * C + C := Nat.succ_mul i C
    have hmul2 : (i + (k + 1)) * C = (i + 1 + k) * C := by
      rw [show i + (k + 1) = i + 1 + k from by omega]
    have hstep : (i + 1) * C ≤ buf.length :=
      le_trans (Nat.mul_le_mul (by omega) (le_refl C)) hlen
    obtain ⟨buf1, hA1, hA2, hA3, hA4⟩ := fillRow_spec samples buf i C 0
      (fun c hc => lt_of_lt_of_le (by omega) (hall c hc))
      (by rw [Nat.add_zero, hsl]; omega)
    obtain ⟨buf2, hB1, hB2, hB3, hB4⟩ := ih buf1 (i + 1)
      (fun c hc => by have := hall c hc; omega)
      hsl
      (by rw [hA2, ← hmul2]; exact hlen)
    refine ⟨buf2, ?_, ?_, ?_, ?_⟩
    · rw [fillRows, hA1]
      exact hB1
    · rw [hB2, hA2]
    · intro r cn hir hrk hcn
      rcases Nat.eq_or_lt_of_le hir with heq | hlt
      · subst heq
        rw [hB4 (i * C + cn) (by omega)]
        have := hA3 cn (by rw [hsl]; exact hcn)
        rw [Nat.add_zero] at this
        exact this
      · exact hB3 r cn hlt (by omega) hcn
    · intro p hp
      rw [hB4 p (by omega), hA4 p (by omega)]

/-- C4: when the engine reports `N` per-channel samples across
`C = audio_channels` channels and the decode succeeds with `C` channel
buffers of length `N`, `send_packet` enqueues one frame whose sample
buffer has exactly `N * C` entries, with entry `i * C + cn` equal to
channel `cn`'s sample `i`, and whose timestamp is the packet's. -/
theorem c4_send_packet_interleaves (e : Engine) (d : Dec) (pkt : Packet)
    (hs : HeaderSet) (N : Nat) (samples : List (List Int))
    (hhdr : d.headers = some hs)
    (hC : 0 < hs.1.audio_channels)
    (hcount : e.get_decoded_sample_count hs.1 hs.2.2 pkt.data = .ok N)
    (hread : (e.read_audio_packet hs.1 hs.2.2 pkt.data d.pwr).1 = .ok samples)
    (hlen : samples.length = hs.1.audio_channels)
    (hchan : ∀ c ∈ samples, c.length = N) :
    ∃ f d2, send_packet e d pkt = some (.ok (), d2) ∧
      d2.pending = d.pending ++ [f] ∧
      f.buf.length = N * hs.1.audio_channels ∧
      (∀ i cn, i < N → cn < hs.1.audio_channels →
        f.buf.getD (i * hs.1.audio_channels + cn) 0 = (samples.getD cn []).getD i 0) ∧
      f.t = some pkt.t := by
  cases samples with
  | nil =>
    rw [List.length_nil] at hlen
    omega
  | cons s0 srest =>
    have hs0 : s0.length = N := hchan s0 (List.mem_cons_self s0 srest)
    obtain ⟨buf2, hF1, hF2, hF3, hF4⟩ :=
      fillRows_spec (s0 :: srest) hs.1.audio_channels N
        (List.replicate (N * hs.1.audio_channels) 0) 0
        (fun c hc => by rw [hchan c hc]; omega)
        hlen
        (by rw [List.length_replicate, Nat.zero_add])
    refine ⟨⟨{ d.info with samples := N * hs.1.audio_channels }, some pkt.t, buf2⟩,
      ⟨d.extradata, d.headers, (e.read_audio_packet hs.1 hs.2.2 pkt.data d.pwr).2,
        d.pending ++ [⟨{ d.info with samples := N * hs.1.audio_channels }, some pkt.t, buf2⟩],
        d.info⟩,
      ?_, rfl, ?_, ?_, rfl⟩
    · unfold send_packet
      rw [hhdr]
      simp only [hcount, hread, new_default_frame, hs0, hF1]
    · rw [hF2, List.length_replicate]
    · intro i cn hi hcn
      exact hF3 i cn (Nat.zero_le i) (by omega) hcn

/-- C4 witness: the one-byte packet `[7]` against `testEngine` decodes to
one sample on each of two channels; the enqueued frame is `[1, 2]` with
timestamp 5. -/
theorem c4_send_packet_interleaves_witness :
    ∃ f d2, send_packet testEngine testDecConfigured { data := [7], t := 5 } =
        some (.ok (), d2) ∧
      d2.pending = testDecConfigured.pending ++ [f] ∧
      f.buf.length = 1 * testHeaders.1.audio_channels ∧
      (∀ i cn, i < 1 → cn < testHeaders.1.audio_channels →
        f.buf.getD (i * testHeaders.1.audio_channels + cn) 0 =
          (([[1], [2]] : List (List Int)).getD cn []).getD i 0) ∧
      f.t = some 5 :=
  c4_send_packet_interleaves testEngine testDecConfigured { data := [7], t := 5 }
    testHeaders 1 [[1], [2]] rfl (by decide) rfl rfl rfl (by decide)

end AvVorbis
